import Mathlib

/-!
# Verification of the ISML-MTLS traffic-control core

Shallow embedding of the decentralized traffic-signal control system:
the state encoders and queue discretization (`src/train/train_qlearn.py`,
`src/agents/intersection.py`), the runtime decision policy with its
similarity fallback, the phase controller tick, the reward shaping, and
the coordinator's statistics aggregation. Machine floats are modelled as
rationals; fallible operations return `Except`/`Option`.
-/

namespace ISML

/-- A discretized state: an ordered 4-tuple of congestion buckets. -/
abbrev DState := ℕ × ℕ × ℕ × ℕ

/-! ## Queue discretization

Two textually duplicated bucket functions exist in the repository: one in
the training script and one in the runtime agent. The training one is
applied to raw (float-valued) observation entries, the runtime one to
integer halting-vehicle counts. -/

/-- `discretize_queue` from `src/train/train_qlearn.py` (lines 10-20). -/
def train_discretize_queue (queue_length : ℚ) : ℕ :=
  if queue_length = 0 then 0
  else if queue_length ≤ 3 then 1
  else if queue_length ≤ 6 then 2
  else if queue_length ≤ 10 then 3
  else 4

/-- `IntersectionAgent.discretize_queue` from `src/agents/intersection.py`
(lines 94-105); applied to `getLastStepHaltingNumber` results, which are
non-negative integers. -/
def agent_discretize_queue (queue_length : ℕ) : ℕ :=
  if queue_length = 0 then 0
  else if queue_length ≤ 3 then 1
  else if queue_length ≤ 6 then 2
  else if queue_length ≤ 10 then 3
  else 4

/-! ## Raw observations and the training-side encoder -/

/-- One element of a raw observation sequence: a numeric reading, or a
non-numeric Python value (on which arithmetic comparison raises). -/
inductive ObsVal where
  | num (q : ℚ)
  | other
deriving DecidableEq

/-- One value of a raw observation mapping: a numeric scalar, a nested
sequence, or some other (skipped) value. -/
inductive DictVal where
  | num (q : ℚ)
  | seq (xs : List ObsVal)
  | other
deriving DecidableEq

/-- A raw observation for one intersection: a flat sequence
(list/tuple/ndarray), a mapping, a scalar that `float()` accepts, or a
scalar that `float()` rejects. -/
inductive ObsData where
  | arr (xs : List ObsVal)
  | dict (kvs : List (String × DictVal))
  | scalarNum (q : ℚ)
  | scalarOther
deriving DecidableEq

/-- `extract_queue_lengths` from `src/train/train_qlearn.py` (lines 22-39):
sequences pass through unvalidated; mapping values that are numeric are
appended and nested sequences extended (also unvalidated); a parseable
scalar is wrapped; anything else yields the empty list (with a warning). -/
def extract_queue_lengths : ObsData → List ObsVal
  | .arr xs => xs
  | .dict kvs =>
    kvs.foldl (fun acc kv =>
      match kv.2 with
      | .num q => acc ++ [.num q]
      | .seq xs => acc ++ xs
      | .other => acc) []
  | .scalarNum q => [.num q]
  | .scalarOther => []

/-- Applying `discretize_queue` to one extracted entry. On a non-numeric
entry the Python comparison `queue_length <= 3` raises `TypeError`. -/
def discretizeVal : ObsVal → Except Unit ℕ
  | .num q => .ok (train_discretize_queue q)
  | .other => .error ()

/-- Discretize a list of extracted entries, propagating the first error. -/
def discretizeList : List ObsVal → Except Unit (List ℕ)
  | [] => .ok []
  | v :: vs =>
    match discretizeVal v with
    | .error e => .error e
    | .ok b =>
      match discretizeList vs with
      | .error e => .error e
      | .ok bs => .ok (b :: bs)

/-- The body of `get_state_from_obs` after the `tls_id` lookup: pad the
extracted list with raw zeros to length 4, then discretize the first 4. -/
def encode_obs (obsd : ObsData) : Except Unit (List ℕ) :=
  let queue_lengths := extract_queue_lengths obsd
  let padded := queue_lengths ++ List.replicate (4 - queue_lengths.length) (ObsVal.num 0)
  discretizeList (padded.take 4)

/-- `get_state_from_obs` from `src/train/train_qlearn.py` (lines 41-52).
The observation map is keyed by traffic-light id. -/
def get_state_from_obs (obs : List (String × ObsData)) (tls_id : String) :
    Except Unit (List ℕ) :=
  match obs.find? (fun kv => kv.1 == tls_id) with
  | none => .ok [0, 0, 0, 0]
  | some kv => encode_obs kv.2

/-- `IntersectionAgent.get_state` from `src/agents/intersection.py`
(lines 107-133): the per-lane halting counts come from the simulator
boundary; any exception there is caught and the default state returned.
Each count is discretized, then the list padded with bucket 0 and
truncated to length 4. -/
def agent_get_state (laneCounts : Except Unit (List ℕ)) : List ℕ :=
  match laneCounts with
  | .error _ => [0, 0, 0, 0]
  | .ok counts =>
    let queue_lengths := counts.map agent_discretize_queue
    let padded := queue_lengths ++ List.replicate (4 - queue_lengths.length) 0
    padded.take 4

/-! ## Runtime decision policy

The Q-tables persisted by the training script map each visited 4-tuple
state to a 2-element numpy value vector (`np.zeros(2)` default); the
loaded table is modelled as an ordered association list, matching dict
insertion-order iteration. The `isinstance(q_values, dict)` branches of
the agent are dead for this artifact and are not modelled. -/

abbrev QEntry := ℚ × ℚ

abbrev QTable := List (DState × QEntry)

/-- `np.argmax` over a 2-element value vector: index of the first maximum. -/
def np_argmax2 (q : QEntry) : ℕ := if q.1 < q.2 then 1 else 0

/-- Dict membership test and lookup `self.q_table[state]`. -/
def q_lookup (qt : QTable) (s : DState) : Option QEntry :=
  (qt.find? (fun kv => kv.1 == s)).map Prod.snd

/-- `sum(1 for i, j in zip(target_state, known_state) if i == j)`:
the number of matching positions between two 4-tuples. -/
def similarity (t k : DState) : ℕ :=
  (if t.1 = k.1 then 1 else 0) + (if t.2.1 = k.2.1 then 1 else 0)
    + (if t.2.2.1 = k.2.2.1 then 1 else 0) + (if t.2.2.2 = k.2.2.2 then 1 else 0)

/-- The loop of `_find_similar_state_action` (lines 186-194): a running
pair (best_similarity, best_action), starting at (-1, None), replaced
only when an entry's similarity is strictly greater. -/
def bestLoop (target : DState) : QTable → ℤ → Option ℕ → ℤ × Option ℕ
  | [], best_similarity, best_action => (best_similarity, best_action)
  | kv :: rest, best_similarity, best_action =>
    if best_similarity < (similarity target kv.1 : ℤ) then
      bestLoop target rest (similarity target kv.1) (some (np_argmax2 kv.2))
    else
      bestLoop target rest best_similarity best_action

/-- `IntersectionAgent._find_similar_state_action` from
`src/agents/intersection.py` (lines 178-199). -/
def find_similar_state_action (qt : QTable) (target_state : DState) : Option ℕ :=
  if qt.isEmpty then none
  else
    let r := bestLoop target_state qt (-1) none
    if 2 ≤ r.1 then r.2 else none

/-- `IntersectionAgent.get_action` from `src/agents/intersection.py`
(lines 135-176). `randKeep` models the outcome of the
`random.random() < 0.8` draw used only for the all-empty state. -/
def get_action (qt : QTable) (state : DState) (randKeep : Bool) : ℕ :=
  match q_lookup qt state with
  | some q_values =>
    if |q_values.1 - q_values.2| < 1/10 then 1 else np_argmax2 q_values
  | none =>
    if state = (0, 0, 0, 0) then (if randKeep then 0 else 1)
    else
      match find_similar_state_action qt state with
      | some a => a
      | none => 1

/-- Maximal similarity of any table entry against a target, with the
loop's initial value -1 as the base of the fold. -/
def maxSim (qt : QTable) (target : DState) : ℤ :=
  qt.foldr (fun kv m => max (similarity target kv.1 : ℤ) m) (-1)

/-! ## Phase controller -/

/-- A simulator signal-state string, as a character list. -/
abbrev SigState := List Char

/-- `'y' in s.lower()` from the source, character-wise. -/
def hasYellow (s : SigState) : Bool := (s.map Char.toLower).contains ('y')

/-- Mutable state of `TrafficControlBehaviour` together with the agent
fields it writes (`time_in_phase`, `current_phase`). `phase_start_time`
is `None` until the first processed tick; since `last_phase` starts as
`None` too, the first processed tick always takes the reset branch and
writes `phase_start_time` before it is ever read, so it is modelled as a
plain rational. -/
structure CtrlState where
  last_decision_time : ℚ
  last_phase : Option ℕ
  phase_start_time : ℚ
  time_in_phase : ℚ
  current_phase : ℕ
deriving DecidableEq

/-- The simulator-supplied inputs of one tick. -/
structure TickInput where
  now : ℚ
  reported_phase : ℕ
  signal_state : SigState
  phases : List SigState

/-- `self.min_green = 5` (src/agents/intersection.py line 21). -/
def min_green : ℚ := 5

/-- `self.decision_interval = 5` (src/agents/intersection.py line 18). -/
def decision_interval : ℚ := 5

/-- The phase-search loop at lines 255-259: starting from candidate
`next`, advance `(next + 1) % num_phases` while the candidate's state
string has a yellow indicator; `fuel` is the remaining attempt budget
`num_phases - attempts`. When the budget runs out the caller does not
switch, modelled as `none`. -/
def searchGreen (phases : List SigState) (next : ℕ) : ℕ → Option ℕ
  | 0 => none
  | fuel + 1 =>
    if hasYellow (phases.getD next []) then
      searchGreen phases ((next + 1) % phases.length) fuel
    else some next

/-- Lines 226-233: detect an external phase change by comparing the
reported phase to the last-known phase; on mismatch reset the phase
timer, otherwise recompute the elapsed time in phase. -/
def updateTimers (st : CtrlState) (now : ℚ) (reported : ℕ) : CtrlState :=
  if st.last_phase ≠ some reported then
    { st with phase_start_time := now, last_phase := some reported, time_in_phase := 0 }
  else
    { st with time_in_phase := now - st.phase_start_time }

/-- Lines 248-270: when the action is SWITCH, search for the next
non-yellow phase and, if found, issue the phase-set command and reset
the timers; otherwise leave everything unchanged. -/
def decideSwitch (st : CtrlState) (now : ℚ) (reported : ℕ) (phases : List SigState)
    (action : ℕ) : CtrlState × Option ℕ :=
  if action = 1 then
    match searchGreen phases ((reported + 1) % phases.length) phases.length with
    | some next_phase =>
      ({ st with phase_start_time := now, time_in_phase := 0,
                 current_phase := next_phase, last_phase := some next_phase },
        some next_phase)
    | none => (st, none)
  else (st, none)

/-- Lines 235-270 of `TrafficControlBehaviour.run`: the yellow-phase
guard, the minimum-green guard, and the switch handling, evaluated on
the state `st1` produced by the timer update. -/
def tickCore (st1 : CtrlState) (inp : TickInput) (action : ℕ) : CtrlState × Option ℕ :=
  if hasYellow inp.signal_state then (st1, none)
  else if min_green ≤ st1.time_in_phase then
    decideSwitch st1 inp.now inp.reported_phase inp.phases action
  else (st1, none)

/-- One pass of `TrafficControlBehaviour.run`
(src/agents/intersection.py lines 212-271). `action` is the value
`get_action` returns for this tick; the second component is the
phase-set command sent to the simulator, if any. -/
def tick (st : CtrlState) (inp : TickInput) (action : ℕ) : CtrlState × Option ℕ :=
  if inp.now - st.last_decision_time < decision_interval then (st, none)
  else
    tickCore (updateTimers { st with last_decision_time := inp.now } inp.now inp.reported_phase)
      inp action

/-! ## Reward shaping -/

/-- The fields of a `get_traffic_metrics` snapshot used by
`calculate_reward`. -/
structure TrafficMetrics where
  total_waiting_time : ℚ
  vehicles_passed : ℕ
deriving DecidableEq

/-- Live per-lane flow data `(mean_speed, vehicle_count)` for one unique
controlled lane, queried inside the efficiency block. -/
abbrev LaneFlow := ℚ × ℕ

/-- `WAITING_WEIGHT = 0.4` (src/train/train_qlearn.py line 94). -/
def WAITING_WEIGHT : ℚ := 2/5

/-- `EFFICIENCY_WEIGHT = 0.3` (src/train/train_qlearn.py line 95). -/
def EFFICIENCY_WEIGHT : ℚ := 3/10

/-- Lines 100-104 of `calculate_reward`: the waiting-time penalty. -/
def waiting_component (prev current : TrafficMetrics) : ℚ :=
  let waiting_increase := max 0 (current.total_waiting_time - prev.total_waiting_time)
  let absolute_waiting := current.total_waiting_time / 100
  (-WAITING_WEIGHT) * (waiting_increase / 10 + absolute_waiting * (1/10))

/-- Lines 107-128 of `calculate_reward`: the efficiency reward. The
per-lane speed queries live at the simulator boundary; an exception
there takes the vehicles-passed fallback. -/
def efficiency_component (lanes : Except Unit (List LaneFlow))
    (prev current : TrafficMetrics) : ℚ :=
  match lanes with
  | .ok unique_lanes =>
    let total_flow_score := unique_lanes.foldl (fun acc lane =>
      if 0 < lane.2 then acc + max 0 (lane.1 * min ((lane.2 : ℚ) / 5) 1) else acc) 0
    if unique_lanes.isEmpty then 0
    else EFFICIENCY_WEIGHT * (total_flow_score / (unique_lanes.length : ℚ)) / 10
  | .error _ =>
    let vehicles_delta : ℤ := max 0 ((current.vehicles_passed : ℤ) - (prev.vehicles_passed : ℤ))
    EFFICIENCY_WEIGHT * (vehicles_delta : ℚ) * (1/10)

/-- `calculate_reward` from `src/train/train_qlearn.py` (lines 91-134):
the sum of the pass-through queue component (`basic_reward`), the
waiting component, and the efficiency component. `action_taken` is an
unused parameter of the source function. -/
def calculate_reward (lanes : Except Unit (List LaneFlow))
    (prev current : TrafficMetrics) (_action_taken : ℕ) (basic_reward : ℚ) : ℚ :=
  basic_reward + waiting_component prev current
    + efficiency_component lanes prev current

/-! ## Coordinator statistics aggregation

`ReceiveStatsBehaviour.run` (src/agents/coordinator.py lines 44-77)
parses message bodies of the intended form
`<tls_id>|queue:<int>|waiting:<float>` on the `|` and `:` delimiters.
Strings are modelled as character lists and Python `float()` by a
decimal parser. -/

/-- Python `str.split(sep)` for a single-character separator. -/
def splitOnChar (sep : Char) : List Char → List (List Char)
  | [] => [[]]
  | c :: rest =>
    let r := splitOnChar sep rest
    if c = sep then [] :: r
    else
      match r with
      | [] => [[c]]
      | h :: t => (c :: h) :: t

/-- Value of a digit-character list read in base 10. -/
def digitsToNat (ds : List Char) : ℕ :=
  ds.foldl (fun acc c => acc * 10 + (c.toNat - 48)) 0

/-- Unsigned decimal literal: digits with at most one point, at least
one digit overall. -/
def parseUnsigned (s : List Char) : Option ℚ :=
  match splitOnChar ('.') s with
  | [ip] =>
    if ip ≠ [] ∧ ip.all Char.isDigit then some ((digitsToNat ip : ℚ)) else none
  | [ip, fp] =>
    if (ip ≠ [] ∨ fp ≠ []) ∧ ip.all Char.isDigit ∧ fp.all Char.isDigit then
      some ((digitsToNat ip : ℚ) + (digitsToNat fp : ℚ) / ((10 : ℚ) ^ fp.length))
    else none
  | _ => none

/-- Modelled from Python `float(value)`: an optional sign followed by an
unsigned decimal literal; `none` models the raised `ValueError`. -/
def parseFloat (s : List Char) : Option ℚ :=
  match s with
  | '-' :: rest => (parseUnsigned rest).map Neg.neg
  | _ => parseUnsigned s

/-- Per-intersection statistics record kept by the coordinator
(src/agents/coordinator.py lines 61-65). `last_update` is a timestamp
drawn from `datetime.now()`, modelled as a natural number supplied by
the caller. -/
structure IntersectionStats where
  queue_history : List ℚ
  waiting_history : List ℚ
  last_update : ℕ
deriving DecidableEq

/-- The coordinator's `self.statistics` dict, in insertion order. -/
abbrev StatsStore := List (List Char × IntersectionStats)

/-- Dict lookup in the statistics store. -/
def storeGet (store : StatsStore) (k : List Char) : Option IntersectionStats :=
  (store.find? (fun kv => kv.1 == k)).map Prod.snd

/-- Dict assignment in the statistics store: replace in place, or append
a new key. -/
def storeSet (store : StatsStore) (k : List Char) (v : IntersectionStats) : StatsStore :=
  if (store.find? (fun kv => kv.1 == k)).isSome then
    store.map (fun kv => if kv.1 == k then (k, v) else kv)
  else store ++ [(k, v)]

/-- Lines 55-57: build the `stats` dict from the parts after the id.
`key, value = part.split(':')` raises unless the split has exactly two
fields, and `float(value)` may raise; either aborts the whole block. -/
def buildStats : List (List Char) → Except Unit (List (List Char × ℚ))
  | [] => .ok []
  | part :: rest =>
    match splitOnChar (':') part with
    | [key, value] =>
      match parseFloat value with
      | some v =>
        match buildStats rest with
        | .ok acc => .ok ((key, v) :: acc)
        | .error e => .error e
      | none => .error ()
    | _ => .error ()

/-- Dict lookup in the built `stats` mapping (the last occurrence wins
on duplicate keys, as in a Python dict). -/
def statsGet (stats : List (List Char × ℚ)) (k : List Char) : Option ℚ :=
  (stats.reverse.find? (fun kv => kv.1 == k)).map Prod.snd

/-- One pass of `ReceiveStatsBehaviour.run` on a received body
(src/agents/coordinator.py lines 44-77). Any exception is caught and
logged, leaving the store as mutated up to the failure point: a failure
while building `stats` leaves it untouched; a missing `queue` key fails
after the entry was (possibly) created; a missing `waiting` key fails
after the queue value was appended. -/
def processMsg (store : StatsStore) (now : ℕ) (body : List Char) : StatsStore :=
  let parts := splitOnChar ('|') body
  let tls_id := parts.headD []
  match buildStats parts.tail with
  | .error _ => store
  | .ok stats =>
    let store1 :=
      if (storeGet store tls_id).isSome then store
      else storeSet store tls_id ⟨[], [], now⟩
    match statsGet stats ("queue".toList) with
    | none => store1
    | some qv =>
      let s1 := (storeGet store1 tls_id).getD ⟨[], [], now⟩
      let s2 := { s1 with queue_history := s1.queue_history ++ [qv] }
      let store2 := storeSet store1 tls_id s2
      match statsGet stats ("waiting".toList) with
      | none => store2
      | some wv =>
        let s3 := { s2 with waiting_history := s2.waiting_history ++ [wv],
                            last_update := now }
        let store3 := storeSet store2 tls_id s3
        if 100 < s3.queue_history.length then
          storeSet store3 tls_id
            { s3 with queue_history := s3.queue_history.tail,
                      waiting_history := s3.waiting_history.tail }
        else store3

/-! ## Helper lemmas -/

/-- The duplicated bucket functions agree on every natural queue length. -/
lemma train_eq_agent_discretize (q : ℕ) :
    train_discretize_queue (q : ℚ) = agent_discretize_queue q := by
  unfold train_discretize_queue agent_discretize_queue
  have c0 : ((q : ℚ) = 0) ↔ q = 0 := by exact_mod_cast Iff.rfl
  have c3 : ((q : ℚ) ≤ 3) ↔ q ≤ 3 := by exact_mod_cast Iff.rfl
  have c6 : ((q : ℚ) ≤ 6) ↔ q ≤ 6 := by exact_mod_cast Iff.rfl
  have c10 : ((q : ℚ) ≤ 10) ↔ q ≤ 10 := by exact_mod_cast Iff.rfl
  split_ifs with h1 h2 h3 h4 h5 h6 h7 h8 <;>
    first
      | rfl
      | (exfalso; revert h1; simp_all [c0, c3, c6, c10])

lemma train_discretize_le_four (q : ℚ) : train_discretize_queue q ≤ 4 := by
  unfold train_discretize_queue
  split_ifs <;> omega

lemma agent_discretize_le_four (q : ℕ) : agent_discretize_queue q ≤ 4 := by
  unfold agent_discretize_queue
  split_ifs <;> omega

/-! ## C5: bucket boundaries -/

/-- C5: the discretization bucket function maps a queue length q to
bucket 0 iff q = 0, bucket 1 iff 1 ≤ q ≤ 3, bucket 2 iff 4 ≤ q ≤ 6,
bucket 3 iff 7 ≤ q ≤ 10, and bucket 4 iff q > 10; inputs
0, 3, 4, 6, 7, 10, 11 map to 0, 1, 2, 2, 3, 3, 4; and the training and
runtime encoders discretize identically. -/
theorem C5_bucket_boundaries :
    (∀ q : ℕ,
      (agent_discretize_queue q = 0 ↔ q = 0)
      ∧ (agent_discretize_queue q = 1 ↔ 1 ≤ q ∧ q ≤ 3)
      ∧ (agent_discretize_queue q = 2 ↔ 4 ≤ q ∧ q ≤ 6)
      ∧ (agent_discretize_queue q = 3 ↔ 7 ≤ q ∧ q ≤ 10)
      ∧ (agent_discretize_queue q = 4 ↔ 10 < q)
      ∧ train_discretize_queue (q : ℚ) = agent_discretize_queue q)
    ∧ [0, 3, 4, 6, 7, 10, 11].map agent_discretize_queue = [0, 1, 2, 2, 3, 3, 4]
    ∧ [(0 : ℚ), 3, 4, 6, 7, 10, 11].map train_discretize_queue
        = [0, 1, 2, 2, 3, 3, 4] := by
  refine ⟨fun q => ?_, by decide, by with_unfolding_all decide⟩
  refine ⟨?_, ?_, ?_, ?_, ?_, train_eq_agent_discretize q⟩ <;>
    (unfold agent_discretize_queue; split_ifs <;> simp_all <;> omega)

/-- Evaluation of the C5 boundary characterization at the bucket edge 7. -/
theorem C5_witness :
    (agent_discretize_queue 7 = 3 ↔ 7 ≤ 7 ∧ 7 ≤ 10)
    ∧ train_discretize_queue ((7 : ℕ) : ℚ) = agent_discretize_queue 7 :=
  ⟨(C5_bucket_boundaries.1 7).2.2.2.1, (C5_bucket_boundaries.1 7).2.2.2.2.2⟩

/-! ## C6: the waiting component of the reward -/

/-- C6: the waiting component equals
`-0.4 * (max(0, Δwaiting)/10 + current_waiting/1000)`, and in the
scenario where total waiting rises from 50 to 80 with basic reward -2
and a zero efficiency component the combined reward is -3.232. -/
theorem C6_waiting_component :
    (∀ prev current : TrafficMetrics,
      waiting_component prev current
        = -(2/5 : ℚ)
            * (max 0 (current.total_waiting_time - prev.total_waiting_time) / 10
                + current.total_waiting_time / 1000))
    ∧ calculate_reward (.ok []) ⟨50, 0⟩ ⟨80, 0⟩ 0 (-2) = -(3232/1000) := by
  constructor
  · intro prev current
    unfold waiting_component WAITING_WEIGHT
    ring
  · with_unfolding_all decide

/-! ## C2: decision on a state with a table entry -/

/-- C2: for a state with a Q-table entry, the runtime decision returns
SWITCH (1) when the two action values differ by less than 0.1 in
absolute value, and otherwise the argmax action (0 exactly when the
first value is at least the second). -/
theorem C2_table_entry_decision (qt : QTable) (s : DState) (q : QEntry) (r : Bool)
    (h : q_lookup qt s = some q) :
    (|q.1 - q.2| < 1/10 → get_action qt s r = 1)
    ∧ (¬ |q.1 - q.2| < 1/10 →
        (q.2 ≤ q.1 ∧ get_action qt s r = 0) ∨ (q.1 < q.2 ∧ get_action qt s r = 1)) := by
  have e : get_action qt s r = if |q.1 - q.2| < 1/10 then 1 else np_argmax2 q := by
    simp [get_action, h]
  constructor
  · intro hlt
    rw [e, if_pos hlt]
  · intro hge
    rw [e, if_neg hge]
    unfold np_argmax2
    rcases lt_or_ge q.1 q.2 with hl | hg
    · right
      exact ⟨hl, if_pos hl⟩
    · left
      exact ⟨hg, if_neg (not_lt.2 hg)⟩

/-- Evaluation of C2 on a one-entry table: values (5, 2) are not within
0.1, and their argmax action is KEEP (0). -/
theorem C2_witness :
    get_action [((0, 1, 0, 0), ((5 : ℚ), (2 : ℚ)))] (0, 1, 0, 0) true = 0 := by
  have h := (C2_table_entry_decision [((0, 1, 0, 0), ((5 : ℚ), (2 : ℚ)))]
    (0, 1, 0, 0) ((5 : ℚ), (2 : ℚ)) true (by with_unfolding_all decide)).2
    (by norm_num)
  rcases h with ⟨_, h0⟩ | ⟨hc, _⟩
  · exact h0
  · exact absurd hc (by norm_num)

/-! ## Phase controller lemmas -/

/-- A successful phase search finds, within the attempt budget, a
non-yellow phase reached by repeatedly stepping `+1 mod n` from the
starting candidate, every skipped candidate being yellow. -/
lemma searchGreen_some_spec (phases : List SigState) :
    ∀ (fuel next p : ℕ), next < phases.length →
      searchGreen phases next fuel = some p →
      ∃ k, k < fuel ∧ p = (next + k) % phases.length
        ∧ hasYellow (phases.getD p []) = false
        ∧ ∀ j, j < k → hasYellow (phases.getD ((next + j) % phases.length) []) = true := by
  intro fuel
  induction fuel with
  | zero => intro next p _ hsg; cases hsg
  | succ fuel ih =>
    intro next p hlt hsg
    unfold searchGreen at hsg
    by_cases hy : hasYellow (phases.getD next []) = true
    · rw [if_pos hy] at hsg
      obtain ⟨k, hk, hp, hny, hall⟩ :=
        ih ((next + 1) % phases.length) p (Nat.mod_lt _ (by omega)) hsg
      refine ⟨k + 1, by omega, ?_, hny, ?_⟩
      · rw [hp, Nat.mod_add_mod]
        congr 1
        omega
      · intro j hj
        match j with
        | 0 =>
          rw [Nat.add_zero, Nat.mod_eq_of_lt hlt]
          exact hy
        | j + 1 =>
          have := hall j (by omega)
          rwa [Nat.mod_add_mod, show next + 1 + j = next + (j + 1) by omega] at this
    · rw [if_neg hy] at hsg
      cases hsg
      exact ⟨0, by omega, by rw [Nat.add_zero, Nat.mod_eq_of_lt hlt],
        by simpa using hy, by omega⟩

/-- When every candidate within the attempt budget is yellow, the phase
search fails. -/
lemma searchGreen_all_yellow (phases : List SigState) :
    ∀ (fuel next : ℕ), next < phases.length →
      (∀ j, j < fuel → hasYellow (phases.getD ((next + j) % phases.length) []) = true) →
      searchGreen phases next fuel = none := by
  intro fuel
  induction fuel with
  | zero => intro next _ _; rfl
  | succ fuel ih =>
    intro next hlt hall
    have h0 : hasYellow (phases.getD next []) = true := by
      have := hall 0 (by omega)
      rwa [Nat.add_zero, Nat.mod_eq_of_lt hlt] at this
    unfold searchGreen
    rw [if_pos h0]
    refine ih ((next + 1) % phases.length) (Nat.mod_lt _ (by omega)) ?_
    intro j hj
    have := hall (j + 1) (by omega)
    rwa [show next + (j + 1) = next + 1 + j by omega, ← Nat.mod_add_mod] at this

/-! ## C1: no phase-set during yellow or before minimum green -/

/-- C1: a tick issues a phase-set command only when the reported signal
state has no yellow indicator (case-insensitive) and the recomputed
time in the current phase is at least `min_green = 5`; and a mismatch
between the reported phase and the last-known phase resets the phase
timer (the tick performs this reset before the yellow and minimum-green
checks, by definition of `tick`). -/
theorem C1_no_unsafe_phase_set (st : CtrlState) (inp : TickInput) (action : ℕ) :
    (∀ p, (tick st inp action).2 = some p →
      hasYellow inp.signal_state = false
      ∧ (5 : ℚ) ≤ (updateTimers { st with last_decision_time := inp.now }
          inp.now inp.reported_phase).time_in_phase)
    ∧ (st.last_phase ≠ some inp.reported_phase →
      (updateTimers st inp.now inp.reported_phase).time_in_phase = 0
      ∧ (updateTimers st inp.now inp.reported_phase).phase_start_time = inp.now) := by
  constructor
  · intro p hp
    unfold tick at hp
    split_ifs at hp with h1
    unfold tickCore at hp
    split_ifs at hp with h2 h3
    exact ⟨by simpa using h2, h3⟩
  · intro hne
    unfold updateTimers
    rw [if_pos hne]
    exact ⟨rfl, rfl⟩

/-- Evaluation of C1 on a tick that does issue a command: the signal is
not yellow and at least 5 seconds were spent in the phase. -/
theorem C1_witness :
    hasYellow ("GGrr".toList) = false
    ∧ (5 : ℚ) ≤ (updateTimers
        { last_decision_time := 10, last_phase := some 0, phase_start_time := 0,
          time_in_phase := 0, current_phase := 0 } 10 0).time_in_phase :=
  (C1_no_unsafe_phase_set
    ⟨0, some 0, 0, 0, 0⟩
    ⟨10, 0, "GGrr".toList, ["GGrr".toList, "yyrr".toList, "rrGG".toList, "rryy".toList]⟩
    1).1 2 (by with_unfolding_all decide)

/-! ## C7: the SWITCH handling -/

/-- C7: when the decision is SWITCH and the minimum-green and
non-yellow preconditions hold, the tick advances to the phase reached
from the reported phase by stepping `+1 mod num_phases` past yellow
phases only, searching at most `num_phases` steps, and resets the phase
timer; when every phase within that bound is yellow it issues no
command and leaves the controller state exactly as the timer update
produced it. -/
theorem C7_switch_search (st : CtrlState) (inp : TickInput) (st1 : CtrlState)
    (hst1 : st1 = updateTimers { st with last_decision_time := inp.now }
        inp.now inp.reported_phase)
    (hint : ¬ inp.now - st.last_decision_time < decision_interval)
    (hy : hasYellow inp.signal_state = false)
    (hmg : min_green ≤ st1.time_in_phase) :
    (∀ st2 p, tick st inp 1 = (st2, some p) →
      ∃ k, k < inp.phases.length
        ∧ p = (inp.reported_phase + 1 + k) % inp.phases.length
        ∧ hasYellow (inp.phases.getD p []) = false
        ∧ (∀ j, j < k →
            hasYellow (inp.phases.getD
              ((inp.reported_phase + 1 + j) % inp.phases.length) []) = true)
        ∧ st2 = { st1 with phase_start_time := inp.now, time_in_phase := 0,
                           current_phase := p, last_phase := some p })
    ∧ ((∀ j, j < inp.phases.length →
          hasYellow (inp.phases.getD
            ((inp.reported_phase + 1 + j) % inp.phases.length) []) = true) →
        tick st inp 1 = (st1, none)) := by
  have htick : tick st inp 1 = decideSwitch st1 inp.now inp.reported_phase inp.phases 1 := by
    unfold tick tickCore
    rw [if_neg hint, ← hst1, if_neg (by simp [hy]), if_pos hmg]
  constructor
  · intro st2 p hp
    rw [htick] at hp
    unfold decideSwitch at hp
    rw [if_pos rfl] at hp
    cases hsg : searchGreen inp.phases
        ((inp.reported_phase + 1) % inp.phases.length) inp.phases.length with
    | none =>
      rw [hsg] at hp
      simp at hp
    | some q =>
      rw [hsg] at hp
      have hq : q = p := by simpa using congrArg Prod.snd hp
      have hst2 : st2 =
          { st1 with phase_start_time := inp.now, time_in_phase := 0,
                     current_phase := q, last_phase := some q } := by
        have := congrArg Prod.fst hp
        simp at this
        exact this.symm
      have hn : 0 < inp.phases.length := by
        rcases Nat.eq_zero_or_pos inp.phases.length with h0 | h
        · rw [h0] at hsg
          cases hsg
        · exact h
      obtain ⟨k, hk, hpk, hny, hall⟩ := searchGreen_some_spec inp.phases
        inp.phases.length ((inp.reported_phase + 1) % inp.phases.length) q
        (Nat.mod_lt _ hn) hsg
      rw [Nat.mod_add_mod] at hpk
      refine ⟨k, hk, by rw [← hq]; exact hpk, by rw [← hq]; exact hny, ?_, by rw [hst2, hq]⟩
      intro j hj
      have := hall j hj
      rwa [Nat.mod_add_mod] at this
  · intro hall
    rw [htick]
    unfold decideSwitch
    rw [if_pos rfl]
    rcases Nat.eq_zero_or_pos inp.phases.length with h0 | hn
    · rw [h0]
      rfl
    · have hnone := searchGreen_all_yellow inp.phases inp.phases.length
        ((inp.reported_phase + 1) % inp.phases.length) (Nat.mod_lt _ hn) ?_
      · rw [hnone]
      · intro j hj
        have := hall j hj
        rwa [← Nat.mod_add_mod] at this

/-- Evaluation of C7 when every phase is yellow: the tick leaves the
timer-updated state unchanged and issues no command. -/
theorem C7_witness :
    tick ⟨0, some 0, 0, 0, 0⟩ ⟨10, 0, "GGrr".toList, ["yyry".toList, "ryyr".toList]⟩ 1
      = (⟨10, some 0, 0, 10, 0⟩, none) :=
  (C7_switch_search ⟨0, some 0, 0, 0, 0⟩
    ⟨10, 0, "GGrr".toList, ["yyry".toList, "ryyr".toList]⟩
    ⟨10, some 0, 0, 10, 0⟩
    (by with_unfolding_all decide)
    (by with_unfolding_all decide)
    (by decide)
    (by with_unfolding_all decide)).2 (by decide)

/-! ## Similarity-fallback lemmas -/

lemma maxSim_nil (t : DState) : maxSim [] t = -1 := rfl

lemma maxSim_cons (kv : DState × QEntry) (rest : QTable) (t : DState) :
    maxSim (kv :: rest) t = max (similarity t kv.1 : ℤ) (maxSim rest t) := rfl

lemma neg_one_le_maxSim (qt : QTable) (t : DState) : -1 ≤ maxSim qt t := by
  induction qt with
  | nil => simp [maxSim_nil]
  | cons kv rest ih =>
    rw [maxSim_cons]
    omega

/-- The running best similarity of the loop is the maximum of its start
value and every entry's similarity. -/
lemma bestLoop_fst (t : DState) :
    ∀ (qt : QTable) (b : ℤ) (a : Option ℕ), -1 ≤ b →
      (bestLoop t qt b a).1 = max b (maxSim qt t) := by
  intro qt
  induction qt with
  | nil =>
    intro b a hb
    simp only [bestLoop, maxSim_nil]
    omega
  | cons kv rest ih =>
    intro b a hb
    rw [maxSim_cons]
    unfold bestLoop
    split_ifs with h
    · rw [ih _ _ (by omega)]
      omega
    · rw [ih _ _ hb]
      omega

/-- When no entry strictly beats the running best, the running action
is never replaced. -/
lemma bestLoop_snd_stable (t : DState) :
    ∀ (qt : QTable) (b : ℤ) (a : Option ℕ), maxSim qt t ≤ b →
      (bestLoop t qt b a).2 = a := by
  intro qt
  induction qt with
  | nil => intro b a _; rfl
  | cons kv rest ih =>
    intro b a hle
    rw [maxSim_cons] at hle
    unfold bestLoop
    rw [if_neg (by omega)]
    exact ih b a (by omega)

/-- When some entry strictly beats the running best, the loop returns
the best action of the first entry attaining the maximal similarity. -/
lemma bestLoop_snd_find (t : DState) :
    ∀ (qt : QTable) (b : ℤ) (a : Option ℕ), -1 ≤ b → b < maxSim qt t →
      (bestLoop t qt b a).2
        = (qt.find? (fun kv => (similarity t kv.1 : ℤ) == maxSim qt t)).map
            (fun kv => np_argmax2 kv.2) := by
  intro qt
  induction qt with
  | nil =>
    intro b a hb0 hb
    rw [maxSim_nil] at hb
    omega
  | cons kv rest ih =>
    intro b a hb0 hb
    rw [maxSim_cons] at hb ⊢
    unfold bestLoop
    split_ifs with hs
    · rcases lt_or_ge (similarity t kv.1 : ℤ) (maxSim rest t) with hlt | hge
      · rw [max_eq_right (le_of_lt hlt)]
        rw [List.find?_cons_of_neg _ (by simp; omega)]
        rw [ih _ _ (by omega) hlt]
      · rw [max_eq_left hge]
        rw [List.find?_cons_of_pos _ (by simp)]
        exact bestLoop_snd_stable t rest _ _ hge
    · have hlt : (similarity t kv.1 : ℤ) < maxSim rest t := by omega
      rw [max_eq_right (le_of_lt hlt)] at hb ⊢
      rw [List.find?_cons_of_neg _ (by simp; omega)]
      exact ih _ _ hb0 (by omega)

/-- The maximal similarity is attained by some entry of a non-empty
table. -/
lemma maxSim_attained (t : DState) :
    ∀ qt : QTable, qt ≠ [] →
      ∃ kv ∈ qt, (similarity t kv.1 : ℤ) = maxSim qt t := by
  intro qt
  induction qt with
  | nil => intro h; exact absurd rfl h
  | cons kv rest ih =>
    intro _
    rw [maxSim_cons]
    rcases eq_or_ne rest [] with h0 | hne
    · subst h0
      exact ⟨kv, List.mem_singleton_self kv, by rw [maxSim_nil]; omega⟩
    · obtain ⟨kv2, hmem, hsim⟩ := ih hne
      rcases le_or_lt (maxSim rest t) (similarity t kv.1 : ℤ) with hge | hlt
      · exact ⟨kv, List.mem_cons_self kv rest, by omega⟩
      · exact ⟨kv2, List.mem_cons_of_mem kv hmem, by omega⟩

/-- `_find_similar_state_action` characterized through the maximal
similarity and the first entry attaining it. -/
lemma find_similar_spec (qt : QTable) (t : DState) (hne : qt ≠ []) :
    find_similar_state_action qt t
      = if 2 ≤ maxSim qt t then
          (qt.find? (fun kv => (similarity t kv.1 : ℤ) == maxSim qt t)).map
            (fun kv => np_argmax2 kv.2)
        else none := by
  have hfst : (bestLoop t qt (-1) none).1 = maxSim qt t := by
    rw [bestLoop_fst t qt (-1) none le_rfl]
    have := neg_one_le_maxSim qt t
    omega
  have hlet : find_similar_state_action qt t
      = if 2 ≤ (bestLoop t qt (-1) none).1 then (bestLoop t qt (-1) none).2 else none := by
    unfold find_similar_state_action
    rw [if_neg (by simp [List.isEmpty_iff, hne])]
  rw [hlet, hfst]
  split_ifs with h2
  · exact bestLoop_snd_find t qt (-1) none le_rfl (by omega)
  · rfl

/-! ## C3: the unseen-state similarity fallback -/

/-- C3: for an unseen state other than (0,0,0,0) and a non-empty
Q-table, when the maximal per-position equality count is at least 2 the
decision is the argmax action of a maximally-similar table state, and
when it is at most 1 the decision is SWITCH (1). -/
theorem C3_unseen_state_fallback (qt : QTable) (s : DState) (r : Bool)
    (hs : s ≠ (0, 0, 0, 0)) (hne : qt ≠ []) (hmiss : q_lookup qt s = none) :
    (2 ≤ maxSim qt s →
      ∃ kv, kv ∈ qt ∧ (similarity s kv.1 : ℤ) = maxSim qt s
        ∧ get_action qt s r = np_argmax2 kv.2)
    ∧ (maxSim qt s ≤ 1 → get_action qt s r = 1) := by
  have hs0 : s ≠ 0 := hs
  constructor
  · intro h2
    obtain ⟨kv0, hmem0, hsim0⟩ := maxSim_attained s qt hne
    have hsome : (qt.find? (fun kv => (similarity s kv.1 : ℤ) == maxSim qt s)).isSome := by
      rw [List.find?_isSome]
      exact ⟨kv0, hmem0, by simpa using hsim0⟩
    obtain ⟨kv, hfind⟩ := Option.isSome_iff_exists.1 hsome
    have hfs : find_similar_state_action qt s = some (np_argmax2 kv.2) := by
      rw [find_similar_spec qt s hne, if_pos h2, hfind]
      rfl
    refine ⟨kv, List.mem_of_find?_eq_some hfind, by simpa using List.find?_some hfind, ?_⟩
    simp [get_action, hmiss, hs, hs0, hfs]
  · intro h1
    have hfs : find_similar_state_action qt s = none := by
      rw [find_similar_spec qt s hne, if_neg (by omega)]
    simp [get_action, hmiss, hs, hs0, hfs]

/-- Evaluation of C3 on a table sharing 3 of 4 positions with the
unseen state. -/
theorem C3_witness :
    ∃ kv, kv ∈ ([((1, 2, 3, 4), ((3 : ℚ), (1 : ℚ))),
        ((0, 2, 3, 9), ((0 : ℚ), (5 : ℚ)))] : QTable)
      ∧ (similarity (0, 2, 3, 4) kv.1 : ℤ)
          = maxSim [((1, 2, 3, 4), ((3 : ℚ), (1 : ℚ))),
              ((0, 2, 3, 9), ((0 : ℚ), (5 : ℚ)))] (0, 2, 3, 4)
      ∧ get_action [((1, 2, 3, 4), ((3 : ℚ), (1 : ℚ))),
            ((0, 2, 3, 9), ((0 : ℚ), (5 : ℚ)))] (0, 2, 3, 4) true = np_argmax2 kv.2 :=
  (C3_unseen_state_fallback
    [((1, 2, 3, 4), ((3 : ℚ), (1 : ℚ))), ((0, 2, 3, 9), ((0 : ℚ), (5 : ℚ)))]
    (0, 2, 3, 4) true (by decide) (by simp) (by with_unfolding_all decide)).1
    (by with_unfolding_all decide)

/-! ## C10: ties resolved by table iteration order -/

/-- C10: in the similarity fallback the returned action is the best
action of the first table state (in iteration order) attaining the
maximal equality count, and the result does not depend on the random
draw. -/
theorem C10_first_maximal_match (qt : QTable) (s : DState) (r : Bool)
    (hs : s ≠ (0, 0, 0, 0)) (hne : qt ≠ []) (hmiss : q_lookup qt s = none)
    (h2 : 2 ≤ maxSim qt s) :
    ∃ kv, qt.find? (fun kv => (similarity s kv.1 : ℤ) == maxSim qt s) = some kv
      ∧ get_action qt s r = np_argmax2 kv.2
      ∧ (∀ r2 : Bool, get_action qt s r2 = get_action qt s r) := by
  have hs0 : s ≠ 0 := hs
  obtain ⟨kv0, hmem0, hsim0⟩ := maxSim_attained s qt hne
  have hsome : (qt.find? (fun kv => (similarity s kv.1 : ℤ) == maxSim qt s)).isSome := by
    rw [List.find?_isSome]
    exact ⟨kv0, hmem0, by simpa using hsim0⟩
  obtain ⟨kv, hfind⟩ := Option.isSome_iff_exists.1 hsome
  have hfs : find_similar_state_action qt s = some (np_argmax2 kv.2) := by
    rw [find_similar_spec qt s hne, if_pos h2, hfind]
    rfl
  refine ⟨kv, hfind, by simp [get_action, hmiss, hs, hs0, hfs], ?_⟩
  intro r2
  simp [get_action, hmiss, hs, hs0, hfs]

/-- Evaluation of C10 on a table whose two states both share 3 of 4
positions with the unseen state: the first entry's best action (1) is
returned for either random draw. -/
theorem C10_witness :
    ∃ kv, ([((1, 1, 0, 0), ((0 : ℚ), (2 : ℚ))),
          ((1, 1, 2, 2), ((7 : ℚ), (1 : ℚ)))] : QTable).find?
        (fun kv => (similarity (1, 1, 2, 0) kv.1 : ℤ)
          == maxSim [((1, 1, 0, 0), ((0 : ℚ), (2 : ℚ))),
              ((1, 1, 2, 2), ((7 : ℚ), (1 : ℚ)))] (1, 1, 2, 0)) = some kv
      ∧ get_action [((1, 1, 0, 0), ((0 : ℚ), (2 : ℚ))),
            ((1, 1, 2, 2), ((7 : ℚ), (1 : ℚ)))] (1, 1, 2, 0) false = np_argmax2 kv.2
      ∧ (∀ r2 : Bool, get_action [((1, 1, 0, 0), ((0 : ℚ), (2 : ℚ))),
            ((1, 1, 2, 2), ((7 : ℚ), (1 : ℚ)))] (1, 1, 2, 0) r2
          = get_action [((1, 1, 0, 0), ((0 : ℚ), (2 : ℚ))),
              ((1, 1, 2, 2), ((7 : ℚ), (1 : ℚ)))] (1, 1, 2, 0) false) :=
  C10_first_maximal_match
    [((1, 1, 0, 0), ((0 : ℚ), (2 : ℚ))), ((1, 1, 2, 2), ((7 : ℚ), (1 : ℚ)))]
    (1, 1, 2, 0) false (by decide) (by simp) (by with_unfolding_all decide)
    (by with_unfolding_all decide)

/-! ## Encoder lemmas -/

/-- Discretizing a list of numeric entries never fails. -/
lemma discretizeList_map_num (ys : List ℚ) :
    discretizeList (ys.map ObsVal.num) = .ok (ys.map train_discretize_queue) := by
  induction ys with
  | nil => rfl
  | cons y ys ih =>
    simp only [List.map_cons, discretizeList, discretizeVal, ih]

/-- Padding to length 4 and truncating commutes with discretization
when the bucket of 0 is 0. -/
lemma pad_take_map (ys : List ℚ) :
    ((ys ++ List.replicate (4 - ys.length) 0).take 4).map train_discretize_queue
      = (ys.take 4).map train_discretize_queue ++ List.replicate (4 - ys.length) 0 := by
  rcases le_or_lt 4 ys.length with h | h
  · rw [Nat.sub_eq_zero_of_le h]
    simp
  · have h1 : ys.take 4 = ys := List.take_of_length_le (by omega)
    have h2 : (ys ++ List.replicate (4 - ys.length) (0 : ℚ)).take 4
        = ys ++ List.replicate (4 - ys.length) (0 : ℚ) :=
      List.take_of_length_le (by simp; omega)
    rw [h1, h2, List.map_append, List.map_replicate]
    have h0 : train_discretize_queue 0 = 0 := rfl
    rw [h0]

/-! ## C4: the encoder output shape -/

/-- C4 fails as stated: a sequence observation holding a non-numeric
entry makes the training encoder raise (return the error value) instead
of returning a 4-tuple of buckets. -/
theorem C4_counterexample :
    get_state_from_obs [("J7", ObsData.arr [ObsVal.num 1, ObsVal.other])] "J7"
      = Except.error () := by
  with_unfolding_all rfl

/-- C4 (amended): for every raw observation whose extracted values are
all numeric, the training encoder returns exactly the first 4
discretized values right-padded with bucket 0 — a list of length 4 with
entries in [0,4] — and the runtime encoder does the same for every list
of lane counts. -/
theorem C4_encoder_shape :
    (∀ (obsd : ObsData) (ys : List ℚ),
      extract_queue_lengths obsd = ys.map ObsVal.num →
      encode_obs obsd
        = .ok ((ys.take 4).map train_discretize_queue
            ++ List.replicate (4 - ys.length) 0)
      ∧ ((ys.take 4).map train_discretize_queue
          ++ List.replicate (4 - ys.length) 0).length = 4
      ∧ ∀ b ∈ (ys.take 4).map train_discretize_queue
          ++ List.replicate (4 - ys.length) 0, b ≤ 4)
    ∧ (∀ counts : List ℕ,
      agent_get_state (.ok counts)
        = (counts.take 4).map agent_discretize_queue
            ++ List.replicate (4 - counts.length) 0
      ∧ (agent_get_state (.ok counts)).length = 4
      ∧ ∀ b ∈ agent_get_state (.ok counts), b ≤ 4) := by
  constructor
  · intro obsd ys hext
    have hmain : encode_obs obsd
        = .ok ((ys.take 4).map train_discretize_queue
            ++ List.replicate (4 - ys.length) 0) := by
      have hrepl : List.replicate (4 - ys.length) (ObsVal.num 0)
          = (List.replicate (4 - ys.length) (0 : ℚ)).map ObsVal.num := by
        rw [List.map_replicate]
      simp only [encode_obs, hext, List.length_map]
      rw [hrepl, ← List.map_append, ← List.map_take, discretizeList_map_num,
        pad_take_map]
    refine ⟨hmain, ?_, ?_⟩
    · simp [List.length_take]
      omega
    · intro b hb
      rcases List.mem_append.1 hb with h | h
      · obtain ⟨y, _, hy⟩ := List.mem_map.1 h
        rw [← hy]
        exact train_discretize_le_four y
      · rw [List.eq_of_mem_replicate h]
        omega
  · intro counts
    have hmain : agent_get_state (.ok counts)
        = (counts.take 4).map agent_discretize_queue
            ++ List.replicate (4 - counts.length) 0 := by
      simp only [agent_get_state, List.length_map]
      rcases le_or_lt 4 counts.length with h | h
      · rw [Nat.sub_eq_zero_of_le h]
        simp [List.map_take]
      · rw [List.take_of_length_le (by simp; omega), List.take_of_length_le h.le]
    refine ⟨hmain, ?_, ?_⟩
    · rw [hmain]
      simp [List.length_take]
      omega
    · intro b hb
      rw [hmain] at hb
      rcases List.mem_append.1 hb with h | h
      · obtain ⟨y, _, hy⟩ := List.mem_map.1 h
        rw [← hy]
        exact agent_discretize_le_four y
      · rw [List.eq_of_mem_replicate h]
        omega

/-- Evaluation of the amended C4 on two extracted numeric readings. -/
theorem C4_witness :
    encode_obs (ObsData.arr [ObsVal.num 7, ObsVal.num 2])
      = .ok (([(7 : ℚ), 2].take 4).map train_discretize_queue
          ++ List.replicate (4 - ([(7 : ℚ), 2]).length) 0) :=
  ((C4_encoder_shape.1 (ObsData.arr [ObsVal.num 7, ObsVal.num 2]) [(7 : ℚ), 2])
    (by rfl)).1

/-! ## C8: degraded readings -/

/-- C8 fails as stated: a sequence observation with only a non-numeric
entry (no extractable numbers) makes the training encoder raise (return
the error value) instead of returning the all-zero state. -/
theorem C8_counterexample :
    get_state_from_obs [("J9", ObsData.arr [ObsVal.other])] "J9"
      = Except.error () := by
  with_unfolding_all rfl

/-- C8 (amended): when extraction yields no values at all (unparseable
scalar, or a mapping without numeric or sequence values) the training
encoder returns the all-zero state without error, as it does for a
missing intersection id; and the runtime encoder returns the all-zero
state whenever the lane reading fails. -/
theorem C8_degraded_readings :
    (∀ obsd : ObsData, extract_queue_lengths obsd = [] →
      encode_obs obsd = .ok [0, 0, 0, 0])
    ∧ (∀ (obs : List (String × ObsData)) (tls_id : String),
      obs.find? (fun kv => kv.1 == tls_id) = none →
      get_state_from_obs obs tls_id = .ok [0, 0, 0, 0])
    ∧ agent_get_state (.error ()) = [0, 0, 0, 0] := by
  refine ⟨?_, ?_, rfl⟩
  · intro obsd hext
    unfold encode_obs
    rw [hext]
    rfl
  · intro obs tls_id hfind
    unfold get_state_from_obs
    rw [hfind]

/-- Evaluation of the amended C8 on an unparseable scalar observation. -/
theorem C8_witness :
    encode_obs ObsData.scalarOther = .ok [0, 0, 0, 0] :=
  C8_degraded_readings.1 ObsData.scalarOther rfl

/-! ## C9: aggregator behavior on malformed messages -/

/-- C9 fails as stated: the malformed body `J7|queue:3` (no waiting
field) is discarded without raising, but the initially empty statistics
store does not stay empty — an entry for `J7` is created with the queue
value appended to its history. -/
theorem C9_counterexample :
    processMsg [] 7 ("J7|queue:3".toList)
      = [("J7".toList, ⟨[(3 : ℚ)], [], 7⟩)] := by
  with_unfolding_all decide

/-- C9 (amended): processing a received body never raises (the handler
is a total function); a body that fails while the key:value stats are
being built — a part without exactly one colon separator, or a value
that does not parse as a number — leaves the statistics store exactly
as it was; but a body whose parts parse while lacking the waiting field
can create an entry and append a queue value, as `J7|queue:3` shows. -/
theorem C9_malformed_messages :
    (∀ (store : StatsStore) (now : ℕ) (body : List Char),
      buildStats (splitOnChar ('|') body).tail = .error () →
      processMsg store now body = store)
    ∧ processMsg [] 7 ("J7|queue:3".toList)
        = [("J7".toList, ⟨[(3 : ℚ)], [], 7⟩)] := by
  constructor
  · intro store now body herr
    simp only [processMsg]
    rw [herr]
  · with_unfolding_all decide

/-- Evaluation of the amended C9: a body whose second part has no colon
leaves a non-empty store untouched. -/
theorem C9_witness :
    processMsg [("K1".toList, ⟨[(1 : ℚ)], [(2 : ℚ)], 3⟩)] 9 ("J7|queue".toList)
      = [("K1".toList, ⟨[(1 : ℚ)], [(2 : ℚ)], 3⟩)] :=
  C9_malformed_messages.1 [("K1".toList, ⟨[(1 : ℚ)], [(2 : ℚ)], 3⟩)] 9
    ("J7|queue".toList) (by with_unfolding_all rfl)

end ISML
